import Mathlib

/-!
Verification of the field-extraction engine of `renomeador_pdfs.py`.

Strings are modelled as `List Char`.  The Python regular expressions used by
the program are compiled by hand into deterministic matcher functions
(`Matcher`); each hand compilation is justified at its definition site — all
the starred/optional subpatterns of the source are over character classes
that are disjoint from the character that must follow, so Python's greedy
backtracking search coincides with maximal munch.

Library functions used by the program (`unicodedata`-based accent stripping,
`str.upper`, `str.splitlines`, `str.strip`) are modelled character-wise with
explicit tables covering the Latin letters that occur in the documents this
tool processes.
-/

namespace Renomeador

abbrev Str := List Char

/-- Characters the Python `\s` class and `str.strip` treat as whitespace
(ASCII whitespace plus the no-break space that PDF extractors emit). -/
def isPySpace (c : Char) : Bool :=
  c = ' ' || c = '\t' || c = '\n' || c = '\r' || c = '\x0b' || c = '\x0c' || c = '\xa0'

/-- Accent stripping of `strip_accents` (NFD decomposition followed by
dropping combining marks), tabulated per precomposed Latin character. -/
def stripAccentChar (c : Char) : Char :=
  match c with
  | 'á' | 'à' | 'â' | 'ã' | 'ä' => 'a'
  | 'Á' | 'À' | 'Â' | 'Ã' | 'Ä' => 'A'
  | 'é' | 'è' | 'ê' | 'ë' => 'e'
  | 'É' | 'È' | 'Ê' | 'Ë' => 'E'
  | 'í' | 'ì' | 'î' | 'ï' => 'i'
  | 'Í' | 'Ì' | 'Î' | 'Ï' => 'I'
  | 'ó' | 'ò' | 'ô' | 'õ' | 'ö' => 'o'
  | 'Ó' | 'Ò' | 'Ô' | 'Õ' | 'Ö' => 'O'
  | 'ú' | 'ù' | 'û' | 'ü' => 'u'
  | 'Ú' | 'Ù' | 'Û' | 'Ü' => 'U'
  | 'ç' => 'c'
  | 'Ç' => 'C'
  | 'ñ' => 'n'
  | 'Ñ' => 'N'
  | _ => c

/-- Python `str.upper`, character-wise (ASCII letters plus the accented
letters of the table above). -/
def pyUpperChar (c : Char) : Char :=
  match c with
  | 'á' => 'Á' | 'à' => 'À' | 'â' => 'Â' | 'ã' => 'Ã' | 'ä' => 'Ä'
  | 'é' => 'É' | 'è' => 'È' | 'ê' => 'Ê' | 'ë' => 'Ë'
  | 'í' => 'Í' | 'ì' => 'Ì' | 'î' => 'Î' | 'ï' => 'Ï'
  | 'ó' => 'Ó' | 'ò' => 'Ò' | 'ô' => 'Ô' | 'õ' => 'Õ' | 'ö' => 'Ö'
  | 'ú' => 'Ú' | 'ù' => 'Ù' | 'û' => 'Û' | 'ü' => 'Ü'
  | 'ç' => 'Ç' | 'ñ' => 'Ñ'
  | _ => if 'a' ≤ c ∧ c ≤ 'z' then Char.ofNat (c.toNat - 32) else c

/-- `strip_accents` of the source, applied character-wise. -/
def strip_accents (s : Str) : Str := s.map stripAccentChar

/-- Python `str.upper` on a whole string. -/
def pyUpper (s : Str) : Str := s.map pyUpperChar

def isAsciiLetter (c : Char) : Bool :=
  ('A' ≤ c && c ≤ 'Z') || ('a' ≤ c && c ≤ 'z')

def isDigitCh (c : Char) : Bool := '0' ≤ c && c ≤ '9'

/-- A character counts as accented exactly when the stripping table moves it. -/
def isAccented (c : Char) : Bool := stripAccentChar c ≠ c

/-- Python `\w` for the character set relevant to this program. -/
def isWordChar (c : Char) : Bool :=
  isAsciiLetter c || isDigitCh c || c = '_' || isAccented c

/-- `only_digits` of the source: drop every non-digit character. -/
def only_digits (s : Str) : Str := s.filter isDigitCh

/-- Numeric value of a digit character (Python `int(c)` for a digit). -/
def digitVal (c : Char) : Nat := c.toNat - 48

/-- `validate_cpf` of the source: the mod-11 two-check-digit CPF checksum.
Indexing `cpf[i]` becomes `getD` (the indices are in range after the length
test, as in the Python); `cpf == cpf[0]*11` is the replicate comparison. -/
def validate_cpf (cpf : Str) : Bool :=
  let cpf := only_digits cpf
  if cpf.length ≠ 11 then false
  else if cpf = List.replicate 11 (cpf.getD 0 ' ') then false
  else
    let d := fun i => digitVal (cpf.getD i ' ')
    let soma1 := d 0 * 10 + d 1 * 9 + d 2 * 8 + d 3 * 7 + d 4 * 6 +
      d 5 * 5 + d 6 * 4 + d 7 * 3 + d 8 * 2
    let dv1 := (soma1 * 10) % 11
    let dv1 := if dv1 = 10 then 0 else dv1
    if dv1 ≠ d 9 then false
    else
      let soma2 := d 0 * 11 + d 1 * 10 + d 2 * 9 + d 3 * 8 + d 4 * 7 +
        d 5 * 6 + d 6 * 5 + d 7 * 4 + d 8 * 3 + d 9 * 2
      let dv2 := (soma2 * 10) % 11
      let dv2 := if dv2 = 10 then 0 else dv2
      decide (dv2 = d 10)

/-! ## Matcher infrastructure

A `Matcher` is a hand compilation of one Python regular expression: given the
subject string and a start position it returns the end position of the match
attempt anchored there, or `none`.  `reSearch` then reproduces `re.search`
(leftmost successful start wins) and `reFindAll` reproduces `finditer`
(non-overlapping, scanning left to right). -/

abbrev Matcher := Str → Nat → Option Nat

/-- Length of the maximal run of characters satisfying `p` starting at `i`. -/
def runLen (p : Char → Bool) (s : Str) (i : Nat) : Nat :=
  ((s.drop i).takeWhile p).length

/-- Case-sensitive literal. -/
def mLit (lit : Str) : Matcher := fun s i =>
  if lit.isPrefixOf (s.drop i) then some (i + lit.length) else none

/-- Case-insensitive literal (Python per-character upper-case folding). -/
def mLitCI (lit : Str) : Matcher := fun s i =>
  let seg := (s.drop i).take lit.length
  if seg.length = lit.length ∧
     (seg.zip lit).all (fun p => pyUpperChar p.1 = pyUpperChar p.2) then
    some (i + lit.length)
  else none

/-- Sequencing of matchers (regex concatenation of deterministic pieces). -/
def mSeq (a b : Matcher) : Matcher := fun s i => (a s i).bind (b s)

/-- `\s+` — the following pattern piece never starts with whitespace wherever
this is used, so greedy maximal munch equals Python's backtracking search. -/
def mWsPlus : Matcher := fun s i =>
  let n := runLen isPySpace s i
  if n = 0 then none else some (i + n)

/-- `\s*` under the same disjointness condition as `mWsPlus`. -/
def mWsStar : Matcher := fun s i => some (i + runLen isPySpace s i)

/-- Single character from a class. -/
def mCls (p : Char → Bool) : Matcher := fun s i =>
  match s[i]? with
  | some c => if p c then some (i + 1) else none
  | none => none

/-- Is position `i` a `\b` word boundary of `s`? -/
def wbAt (s : Str) (i : Nat) : Bool :=
  let prevWord := match i with
    | 0 => false
    | j + 1 => match s[j]? with
      | some c => isWordChar c
      | none => false
  let nextWord := match s[i]? with
    | some c => isWordChar c
    | none => false
  prevWord != nextWord

/-- Zero-width `\b`. -/
def mWb : Matcher := fun s i => if wbAt s i then some i else none

/-- `LIT?\b` (e.g. `(?:ES)?\b`): Python first tries the literal and the
boundary after it, then backtracks to the empty alternative. -/
def mOptLitWb (lit : Str) : Matcher := fun s i =>
  match mLit lit s i with
  | some j =>
    if wbAt s j then some j
    else if wbAt s i then some i else none
  | none => if wbAt s i then some i else none

/-- Case-insensitive `LIT?\b`. -/
def mOptLitWbCI (lit : Str) : Matcher := fun s i =>
  match mLitCI lit s i with
  | some j =>
    if wbAt s j then some j
    else if wbAt s i then some i else none
  | none => if wbAt s i then some i else none

/-- `\w*\b` (as in `\bNASC\w*\b`): the maximal word run always ends on a
boundary, so no backtracking occurs. -/
def mWordStarWb : Matcher := fun s i =>
  let j := i + runLen isWordChar s i
  if wbAt s j then some j else none

/-- `re.search` from a given position: leftmost successful start wins. -/
def reSearchFrom (m : Matcher) (s : Str) (pos : Nat) : Option (Nat × Nat) :=
  (List.range (s.length + 1 - pos)).findSome? fun d =>
    (m s (pos + d)).map fun e => (pos + d, e)

/-- `re.search`. -/
def reSearch (m : Matcher) (s : Str) : Option (Nat × Nat) := reSearchFrom m s 0

/-- Worker for `reFindAll`; the fuel only bounds the number of matches, which
never exceeds `s.length + 1`. -/
def reFindAllAux (m : Matcher) (s : Str) : Nat → Nat → List (Nat × Nat)
  | _, 0 => []
  | pos, fuel + 1 =>
    match reSearchFrom m s pos with
    | none => []
    | some (st, en) => (st, en) :: reFindAllAux m s (max en (st + 1)) fuel

/-- `re.finditer`: all non-overlapping matches, left to right. -/
def reFindAll (m : Matcher) (s : Str) : List (Nat × Nat) :=
  reFindAllAux m s 0 (s.length + 2)

/-- The slice `s[a:b]` of Python (clamped, `a ≤ b` in all our uses). -/
def substr (s : Str) (a b : Nat) : Str := (s.drop a).take (b - a)

/-! ## The CPF patterns of the source -/

/-- The hyphen-like characters of `_HYPHENS` (U+002D, U+2010..U+2014, U+2212). -/
def isHyphenCh (c : Char) : Bool :=
  c = '-' || c = '‐' || c = '‑' || c = '‒' ||
  c = '–' || c = '—' || c = '−'

/-- The separator class `_SEP` = `[. -…]`. -/
def isSepCh (c : Char) : Bool := c = '.' || c = ' ' || isHyphenCh c

/-- `\d{n}` at a position. -/
def digitsAt (n : Nat) : Matcher := fun s i =>
  let seg := (s.drop i).take n
  if seg.length = n ∧ seg.all isDigitCh then some (i + n) else none

/-- `SEP?\d{n}`: the separator class and the digit class are disjoint, so
Python's greedy attempt on the optional separator is deterministic. -/
def sepOptDigits (n : Nat) : Matcher := fun s i =>
  match s[i]? with
  | some c => if isSepCh c then digitsAt n s (i + 1) else digitsAt n s i
  | none => none

/-- `CPF_REGEX` = `\b\d{3}(?:SEP?\d{3}){2}(?:SEP?\d{2})\b`. -/
def CPF_REGEX : Matcher := fun s i =>
  if wbAt s i then
    ((((digitsAt 3 s i).bind (sepOptDigits 3 s)).bind
        (sepOptDigits 3 s)).bind (sepOptDigits 2 s)).bind
      fun j => if wbAt s j then some j else none
  else none

/-- `CPF_ANY11_REGEX` = `\b\d{11}\b`. -/
def CPF_ANY11_REGEX : Matcher := fun s i =>
  if wbAt s i then
    (digitsAt 11 s i).bind fun j => if wbAt s j then some j else none
  else none

/-- `\s*\.?\s*` inside `CPF_LABEL_TOLERANT`: always succeeds; the letter that
follows is neither whitespace nor a dot, so maximal munch is faithful. -/
def dotOptWs (s : Str) (i : Nat) : Nat :=
  let j := i + runLen isPySpace s i
  let j := match s[j]? with
    | some '.' => j + 1
    | _ => j
  j + runLen isPySpace s j

/-- `CPF_LABEL_TOLERANT` = `\bC\s*\.?\s*P\s*\.?\s*F\b` (IGNORECASE). -/
def CPF_LABEL_TOLERANT : Matcher := fun s i =>
  if wbAt s i then
    ((mCls (fun c => c = 'C' || c = 'c') s i).bind fun j =>
      mCls (fun c => c = 'P' || c = 'p') s (dotOptWs s j)).bind fun j =>
      (mCls (fun c => c = 'F' || c = 'f') s (dotOptWs s j)).bind fun j =>
        if wbAt s j then some j else none
  else none

/-- `ANCHOR_PRINCIPAL` = `DORAVANTE\s+DENOMINADO\(S\)\s+DEVEDOR\(ES\)\s*:`. -/
def ANCHOR_PRINCIPAL : Matcher :=
  mSeq (mLit "DORAVANTE".data) (mSeq mWsPlus
    (mSeq (mLit "DENOMINADO(S)".data) (mSeq mWsPlus
      (mSeq (mLit "DEVEDOR(ES)".data) (mSeq mWsStar (mLit ":".data))))))

/-- The first fallback anchor `\bCOMPRADOR(?:ES)?\b`. -/
def FB_COMPRADOR : Matcher :=
  mSeq mWb (mSeq (mLit "COMPRADOR".data) (mOptLitWb "ES".data))

/-- `ANCHORS_FALLBACK`, in source order. -/
def ANCHORS_FALLBACK : List Matcher :=
  [ FB_COMPRADOR,
    mSeq mWb (mSeq (mLit "DEVEDOR".data) (mOptLitWb "ES".data)),
    mSeq mWb (mSeq (mLit "PARTE".data) (mSeq mWsPlus
      (mSeq (mLit "ADQUIRENTE".data) mWb))),
    mSeq mWb (mSeq (mLit "PARTE".data) (mSeq mWsPlus
      (mSeq (mLit "COMPRADORA".data) mWb))),
    mSeq mWb (mSeq (mLit "ADQUIRENTE".data) mWb) ]

/-- `END_ANCHORS`, in source order (searched with IGNORECASE). -/
def END_ANCHORS : List Matcher :=
  [ mSeq mWb (mSeq (mLitCI "CONSTRUTORA".data) (mSeq mWsPlus
      (mSeq (mLitCI "E".data) (mSeq mWsPlus (mSeq (mLitCI "FIADORA".data) mWb))))),
    mSeq mWb (mSeq (mLitCI "CREDORA".data) (mSeq mWsPlus
      (mSeq (mLitCI "FIDUCI".data)
        (mSeq (mCls (fun c => pyUpperChar c = 'Á' || pyUpperChar c = 'A'))
          (mSeq (mLitCI "RIA".data) mWb))))),
    mSeq mWb (mSeq (mLitCI "VENDEDOR".data) (mOptLitWbCI "ES".data)),
    mSeq mWb (mSeq (mLitCI "PARTE".data) (mSeq mWsPlus
      (mSeq (mLitCI "VENDEDORA".data) mWb))),
    mSeq mWb (mSeq (mLitCI "PROMITENTE".data) (mSeq mWsPlus
      (mSeq (mLitCI "VENDEDOR".data) (mOptLitWbCI "ES".data)))),
    mSeq mWb (mSeq (mLitCI "CEDENTE".data) (mOptLitWbCI "S".data)),
    mSeq mWb (mSeq (mLitCI "TRANSMITENTE".data) (mOptLitWbCI "S".data)),
    mSeq mWb (mSeq (mLitCI "CL".data)
      (mSeq (mCls (fun c => pyUpperChar c = 'A' || pyUpperChar c = 'Á'))
        (mSeq (mLitCI "USULA".data) mWb))),
    mSeq mWb (mSeq (mLitCI "OBJETO".data) mWb),
    mSeq mWb (mSeq (mLitCI "TESTEMUNHA".data) (mOptLitWbCI "S".data)) ]

/-! ## `extract_cpf_first_buyer` -/

/-- `_first_end_after`: position of the first section terminator after
`start`, scanning every `END_ANCHORS` pattern over `norm_text[start:]`. -/
def _first_end_after (start : Nat) (norm_text : Str) : Nat :=
  END_ANCHORS.foldl
    (fun e m =>
      match reSearch m (norm_text.drop start) with
      | some (st, _) => if start + st < e then start + st else e
      | none => e)
    norm_text.length

/-- `_extract_cpf_by_label_window` (with the default 240-character window):
after each tolerant `CPF` label, collect the next 11 digit characters and
accept the first checksum-valid candidate. -/
def _extract_cpf_by_label_window (sec : Str) : Option Str :=
  (reFindAll CPF_LABEL_TOLERANT sec).findSome? fun se =>
    let window := (sec.drop se.2).take 240
    let digits := window.filter isDigitCh
    if 11 ≤ digits.length then
      let candidate := digits.take 11
      if validate_cpf candidate then some candidate else none
    else none

/-- The `CPF_REGEX.search` strategy: the first separator-tolerant match, if
its digits pass the checksum. -/
def cpf_regex_try (sec : Str) : Option Str :=
  match reSearch CPF_REGEX sec with
  | some (st, en) =>
    if validate_cpf (only_digits (substr sec st en)) then
      some (only_digits (substr sec st en))
    else none
  | none => none

/-- The `CPF_ANY11_REGEX.search` strategy: the first bare 11-digit run, if it
passes the checksum. -/
def cpf_any11_try (sec : Str) : Option Str :=
  match reSearch CPF_ANY11_REGEX sec with
  | some (st, en) =>
    if validate_cpf (substr sec st en) then some (substr sec st en) else none
  | none => none

/-- The in-section strategy sequence shared by the primary and fallback tiers:
label window, then first `CPF_REGEX` match, then first bare-11-digit match,
each checksum-gated. -/
def section_cpf (sec : Str) : Option Str :=
  match _extract_cpf_by_label_window sec with
  | some cpf => some cpf
  | none =>
    match cpf_regex_try sec with
    | some cpf => some cpf
    | none => cpf_any11_try sec

/-- The section slice `text[start : start + min(maxW, end - start or maxW)]`
taken after an anchor ending at `start`, with `end` already clamped to
`max end start` as in the source. -/
def anchor_section (text : Str) (start endPos maxW : Nat) : Str :=
  let d := max endPos start - start
  (text.drop start).take (min maxW (if d = 0 then maxW else d))

/-- Tier-3 label-window strategy over the whole original text. -/
def fullscan_label_try (text : Str) : Option Str :=
  match reSearch CPF_LABEL_TOLERANT text with
  | some (_, en) =>
    let digits := ((text.drop en).take 240).filter isDigitCh
    if 11 ≤ digits.length then
      if validate_cpf (digits.take 11) then some (digits.take 11) else none
    else none
  | none => none

/-- Tier-3 iteration of all `CPF_REGEX` matches in text order. -/
def fullscan_regex_try (text : Str) : Option Str :=
  (reFindAll CPF_REGEX text).findSome? fun se =>
    if validate_cpf (only_digits (substr text se.1 se.2)) then
      some (only_digits (substr text se.1 se.2))
    else none

/-- Tier-3 iteration of all bare 11-digit runs in text order. -/
def fullscan_any11_try (text : Str) : Option Str :=
  (reFindAll CPF_ANY11_REGEX text).findSome? fun se =>
    if validate_cpf (substr text se.1 se.2) then some (substr text se.1 se.2)
    else none

/-- Tier-3 full scan of `extract_cpf_first_buyer`: label window over the whole
original text first, then the two pattern scans. -/
def cpf_fullscan (text : Str) : Option Str :=
  match fullscan_label_try text with
  | some cpf => some cpf
  | none =>
    match fullscan_regex_try text with
    | some cpf => some cpf
    | none => fullscan_any11_try text

/-- Tier 2: first fallback anchor (in priority order) that matches gets its
section searched; an anchor whose section yields nothing falls through to the
next anchor, exactly as the `continue`-style loop of the source does. -/
def cpf_fallback_scan (text norm : Str) : Option Str :=
  ANCHORS_FALLBACK.findSome? fun a =>
    match reSearch a norm with
    | some (_, en) =>
      section_cpf (anchor_section text en (_first_end_after en norm) 15000)
    | none => none

def STATUS_OK : String := "OK"
def STATUS_NO_TEXT : String := "ERRO: PDF sem texto"
def STATUS_NO_CPF_PRIMARY : String := "ERRO: CPF não encontrado após âncora principal"
def STATUS_CPF_FALLBACK : String := "⚠️ Âncora principal não encontrada, CPF via fallback"
def STATUS_CPF_FULLSCAN : String := "⚠️ Âncora não encontrada, CPF via fullscan"
def STATUS_NO_CPF : String := "ERRO: Nenhum CPF válido encontrado"

/-- `extract_cpf_first_buyer` of the source. -/
def extract_cpf_first_buyer (text : Str) : Option Str × String :=
  if text.all isPySpace then (none, STATUS_NO_TEXT)
  else
    let norm := pyUpper (strip_accents text)
    match reSearch ANCHOR_PRINCIPAL norm with
    | some (_, mEnd) =>
      let sec := anchor_section text mEnd (_first_end_after mEnd norm) 25000
      match section_cpf sec with
      | some cpf => (some cpf, STATUS_OK)
      | none => (none, STATUS_NO_CPF_PRIMARY)
    | none =>
      match cpf_fallback_scan text norm with
      | some cpf => (some cpf, STATUS_CPF_FALLBACK)
      | none =>
        match cpf_fullscan text with
        | some cpf => (some cpf, STATUS_CPF_FULLSCAN)
        | none => (none, STATUS_NO_CPF)

/-! ## `extract_contract_number` -/

/-- Python's substring containment `sub in s`. -/
def containsSub (sub s : Str) : Bool := (reSearch (mLit sub) s).isSome

/-- Line-break characters recognised by Python `str.splitlines` that can occur
in this program's inputs. -/
def isLineBreak (c : Char) : Bool :=
  c = '\n' || c = '\r' || c = '\x0b' || c = '\x0c'

/-- Worker for `splitlinesPy`; `\r\n` counts as a single break and a trailing
break produces no extra empty line. -/
def splitlinesAux : Str → Str → List Str
  | [], acc => [acc.reverse]
  | '\r' :: '\n' :: rest, acc =>
    acc.reverse :: (if rest.isEmpty then [] else splitlinesAux rest [])
  | c :: rest, acc =>
    if isLineBreak c then
      acc.reverse :: (if rest.isEmpty then [] else splitlinesAux rest [])
    else splitlinesAux rest (c :: acc)

/-- Python `str.splitlines`. -/
def splitlinesPy (s : Str) : List Str :=
  match s with
  | [] => []
  | _ => splitlinesAux s []

/-- The class of `_N_LABEL` = `[\s\.\-º°O]` under IGNORECASE. -/
def nlabelClass (c : Char) : Bool :=
  isPySpace c || c = '.' || c = '-' || c = 'º' || c = '°' || c = 'O' || c = 'o'

/-- `_N_LABEL` = `N[\s\.\-º°O]*` (IGNORECASE): nothing follows the starred
class inside the pattern, so the greedy maximal run is the match. -/
def N_LABEL : Matcher := fun s i =>
  (mCls (fun c => c = 'N' || c = 'n') s i).map fun j => j + runLen nlabelClass s j

/-- `_take_first_13_digits` of the source. -/
def _take_first_13_digits (s : Str) : Option Str :=
  let ds := s.filter isDigitCh
  if 13 ≤ ds.length then some (ds.take 13) else none

/-- The class of the `[0-9-…\.\s]{13,}` fallback runs. -/
def numRunClass (c : Char) : Bool :=
  isDigitCh c || isHyphenCh c || c = '.' || isPySpace c

/-- Worker for `classRuns`. -/
def classRunsAux (p : Char → Bool) : Str → Str → List Str
  | [], acc => if acc.isEmpty then [] else [acc.reverse]
  | c :: rest, acc =>
    if p c then classRunsAux p rest (c :: acc)
    else if acc.isEmpty then classRunsAux p rest []
    else acc.reverse :: classRunsAux p rest []

/-- The maximal runs of characters of class `p`, left to right: `re.findall`
of `CLS{n,}` yields exactly the runs of length at least `n`. -/
def classRuns (p : Char → Bool) (s : Str) : List Str := classRunsAux p s []

/-- Python `max(candidates, key=digit count)`: first maximal element wins. -/
def maxByDigits : List Str → Option Str
  | [] => none
  | x :: rest =>
    some (rest.foldl
      (fun b y => if (only_digits b).length < (only_digits y).length then y else b) x)

/-- The two-line window of `try_window`: the keyword line plus the next
line, joined by a space. -/
def contract_window (lines_orig : List Str) (idx : Nat) : Str :=
  (lines_orig.getD idx []) ++
    (if idx + 1 < lines_orig.length then ' ' :: lines_orig.getD (idx + 1) [] else [])

/-- The two-line `try_window` helper of `extract_contract_number`. -/
def try_window (lines_orig : List Str) (idx : Nat) : Option Str :=
  let win := contract_window lines_orig idx
  match reSearch (mLitCI "CONTRATO".data) win with
  | none => none
  | some (_, e) =>
    let tail := win.drop e
    let fromLabel := match reSearch N_LABEL tail with
      | some (_, en) => _take_first_13_digits (tail.drop en)
      | none => none
    match fromLabel with
    | some n => some n
    | none =>
      match _take_first_13_digits tail with
      | some n => some n
      | none =>
        match maxByDigits ((classRuns numRunClass tail).filter fun r => 13 ≤ r.length) with
        | some best => _take_first_13_digits best
        | none => none

/-- `extract_contract_number` of the source. -/
def extract_contract_number (text : Str) : Option Str :=
  if text.isEmpty then none
  else
    let lines_orig := splitlinesPy text
    let lines_norm := lines_orig.map fun l => pyUpper (strip_accents l)
    let candidate_idxs := (List.range lines_orig.length).filter fun i =>
      containsSub "CONTRATO".data (lines_norm.getD i [])
    match candidate_idxs.findSome? (try_window lines_orig) with
    | some n => some n
    | none =>
      let limit := min 40 lines_orig.length
      (List.range limit).findSome? fun i =>
        let ln := lines_orig.getD i []
        let ln_up := lines_norm.getD i []
        if (reSearch N_LABEL ln_up).isSome ∧
           (containsSub "CONTR".data ln_up ∨ i < 10) then
          let sub := match reSearch N_LABEL ln with
            | some (_, en) => ln.drop en
            | none => ln
          match _take_first_13_digits sub with
          | some n => some n
          | none =>
            match maxByDigits ((classRuns numRunClass ln).filter fun r => 13 ≤ r.length) with
            | some best => _take_first_13_digits best
            | none => none
        else none

/-! ## `extract_nome_until_comma` -/

/-- `\bW\b` for a literal word. -/
def wordTok (w : Str) : Matcher := mSeq mWb (mSeq (mLit w) mWb)

/-- `\bW\w*\b` for a literal stem. -/
def wordTokW (w : Str) : Matcher := mSeq mWb (mSeq (mLit w) mWordStarWb)

/-- `STOPWORDS_POS_NOME` of the source, in order. -/
def STOPWORDS_POS_NOME : List Matcher :=
  [ wordTok "CPF".data, wordTok "RG".data, wordTok "CNH".data, wordTok "CTPS".data,
    mSeq mWb (mSeq (mLit "FILIA".data)
      (mSeq (mCls (fun c => c = 'C' || c = 'Ç'))
        (mSeq (mCls (fun c => c = 'A' || c = 'Ã')) (mSeq (mLit "O".data) mWb)))),
    wordTokW "NASC".data, wordTok "NATURAL".data,
    wordTok "RESIDENTE".data,
    mSeq mWb (mSeq (mLit "ENDERE".data)
      (mSeq (mCls (fun c => c = 'C' || c = 'Ç')) (mSeq (mLit "O".data) mWb))),
    wordTok "CONFORME".data, wordTokW "REQUERID".data, wordTokW "REQUERENTE".data,
    mSeq mWb (mSeq (mLit "CERTID".data)
      (mSeq (mCls (fun c => c = 'Ã' || c = 'A')) (mSeq (mLit "O".data) mWb))),
    wordTokW "EMITID".data, wordTokW "EXPEDID".data,
    wordTok "PROCESSO".data, wordTok "PORTADOR".data, wordTok "PORTADORA".data,
    wordTok "EM".data, wordTok "E".data ]

/-- Worker for Python's `re.sub(r"\s+", " ", s)`: each maximal whitespace run
collapses to a single space; the flag records whether the previous character
was part of a whitespace run. -/
def collapseWsAux : Bool → Str → Str
  | _, [] => []
  | prev, c :: rest =>
    if isPySpace c then
      if prev then collapseWsAux true rest
      else ' ' :: collapseWsAux true rest
    else c :: collapseWsAux false rest

/-- `re.sub(r"\s+", " ", s)`. -/
def collapseWs (s : Str) : Str := collapseWsAux false s

/-- Remove the trailing whitespace run (the right half of `str.strip`). -/
def rstripSp : Str → Str
  | [] => []
  | c :: rest =>
    match rstripSp rest with
    | [] => if isPySpace c then [] else [c]
    | r => c :: r

/-- Python `str.strip`. -/
def stripPy (s : Str) : Str := rstripSp (s.dropWhile isPySpace)

/-- The sanitisation tail of `extract_nome_until_comma`:
`re.sub("[^A-Z \n]", " ", ·)` then `re.sub("\s+", " ", ·)` then `strip`. -/
def clean_nome (candidate : Str) : Str :=
  stripPy (collapseWs (candidate.map fun c =>
    if ('A' ≤ c ∧ c ≤ 'Z') ∨ c = ' ' ∨ c = '\n' then c else ' '))

/-- First non-blank line, stripped (`next((ln.strip() for ln in …), "")`). -/
def firstNonBlankLine (t : Str) : Str :=
  match (splitlinesPy t).findSome? (fun ln =>
    let l := stripPy ln
    if l.isEmpty then none else some l) with
  | some l => l
  | none => []

/-- The candidate cut positions of `extract_nome_until_comma`: the first
literal comma, if any, and the start of the first match of each stopword
searched independently over the tail. -/
def cut_positions (tail_up : Str) : List Nat :=
  (match tail_up.findIdx? (fun c => c = ',') with
    | some p => [p]
    | none => []) ++
  STOPWORDS_POS_NOME.filterMap fun st => (reSearch st tail_up).map Prod.fst

/-- `extract_nome_until_comma` of the source.  The anchor regex list arrives
already compiled to matchers. -/
def extract_nome_until_comma (text : Str) (anchors : List Matcher) : Option Str :=
  let up := strip_accents (pyUpper text)
  match anchors.findSome? (fun a => (reSearch a up).map Prod.snd) with
  | none => none
  | some start_pos =>
    let tail_up := up.drop start_pos
    let candidate := match cut_positions tail_up with
      | [] => firstNonBlankLine tail_up
      | p :: rest => tail_up.take (rest.foldl min p)
    let candidate := clean_nome candidate
    if candidate.isEmpty then none else some candidate

/-- The anchor list `rename_certidoes_5_6` passes to the name extractor. -/
def ANCHORS_NOME_5_6 : List Matcher :=
  [ mSeq (mLit "NADA".data) (mSeq mWsPlus (mSeq (mLit "CONSTA".data)
      (mSeq mWsPlus (mSeq (mLit "EM".data) (mSeq mWsPlus
        (mSeq (mLit "NOME".data) (mSeq mWsPlus (mLit "DE".data)))))))),
    mSeq (mLit "EM".data) (mSeq mWsPlus (mSeq (mLit "NOME".data)
      (mSeq mWsPlus (mLit "DE".data)))) ]

/-- The anchor list `rename_certidoes_2` passes to the name extractor. -/
def ANCHORS_NOME_2 : List Matcher :=
  [ mSeq (mLit "COM".data) (mSeq mWsPlus (mSeq (mLit "REFERENCIA".data)
      (mSeq mWsPlus (mSeq (mLit "AO".data) (mSeq mWsPlus
        (mSeq (mLit "NOME".data) (mSeq mWsPlus (mLit "DE".data)))))))) ]

/-! ## Filename resolution (`rename_contratos`, `rename_certidoes_5_6`)

The destination directory is modelled as the snapshot of its file names; the
`while dest.exists()` loops of the source become `destLoop`, whose fuel only
bounds the number of collisions, which cannot exceed the directory size. -/

/-- Decimal rendering of `i` as in the Python f-strings. -/
def natStr (n : Nat) : Str := (Nat.repr n).data

/-- The `i = 1; while dest.exists(): dest = mk i; i += 1` loop. -/
def destLoop (mk : Nat → Str) (dir : List Str) : Nat → Nat → Str
  | i, 0 => mk i
  | i, fuel + 1 => if mk i ∈ dir then destLoop mk dir (i + 1) fuel else mk i

/-- Collision resolution: the base name if free, else the first suffixed
variant that is free. -/
def resolve_name (base : Str) (mk : Nat → Str) (dir : List Str) : Str :=
  if base ∈ dir then destLoop mk dir 1 (dir.length + 1) else base

/-- Base name `f"{cpf}_{contrato}.pdf"` of `rename_contratos`. -/
def contrato_base (cpf contrato : Str) : Str :=
  cpf ++ "_".data ++ contrato ++ ".pdf".data

/-- Collision name `f"{cpf}_{contrato}_{i}.pdf"` of `rename_contratos`. -/
def contrato_alt (cpf contrato : Str) (i : Nat) : Str :=
  cpf ++ "_".data ++ contrato ++ "_".data ++ natStr i ++ ".pdf".data

/-- Destination name computed by `rename_contratos` once both fields are in
hand, relative to the snapshot `dir` of the output directory. -/
def rename_contratos_dest (cpf contrato : Str) (dir : List Str) : Str :=
  resolve_name (contrato_base cpf contrato) (contrato_alt cpf contrato) dir

/-- Base name `f"{nome}-{oficio}.pdf"` of `rename_certidoes_5_6`. -/
def certidao56_base (nome oficio : Str) : Str :=
  nome ++ "-".data ++ oficio ++ ".pdf".data

/-- Collision name `f"{nome}-{oficio}.{i}.pdf"` of `rename_certidoes_5_6`. -/
def certidao56_alt (nome oficio : Str) (i : Nat) : Str :=
  nome ++ "-".data ++ oficio ++ ".".data ++ natStr i ++ ".pdf".data

/-- Destination name computed by `rename_certidoes_5_6`. -/
def rename_certidoes_5_6_dest (nome oficio : Str) (dir : List Str) : Str :=
  resolve_name (certidao56_base nome oficio) (certidao56_alt nome oficio) dir

/-- The C3 counterexample document. -/
def C3_ce_text : Str :=
  "COMPRADOR 529.982.247-25 DORAVANTE DENOMINADO(S) DEVEDOR(ES): SEM NADA AQUI".data

/-- The C7 counterexample document. -/
def C7_ce_text : Str := "DORAVANTE DENOMINADO(S) DEVEDOR(ES):OBJETO 529.982.247-25".data

/-- Absence of two consecutive spaces (used to state claim C10). -/
def noDoubleSpace : Str → Bool
  | [] => true
  | [_] => true
  | a :: b :: rest => !(a = ' ' && b = ' ') && noDoubleSpace (b :: rest)

/-! ## Specification-side check-digit formulas (for the refinement claims) -/

/-- Digit `i` of a candidate, as a number (out-of-range reads never occur in
the uses below). -/
def specDigit (s : Str) (i : Nat) : Nat := digitVal (s.getD i ' ')

/-- The claim's check-digit map: `(sum*10) mod 11`, with `10` mapped to `0`. -/
def cpfDv (weighted : Nat) : Nat :=
  if (weighted * 10) % 11 = 10 then 0 else (weighted * 10) % 11

/-- The claim's first weighted sum: digits 0..8 against weights 10..2. -/
def cpfSum1 (s : Str) : Nat :=
  specDigit s 0 * 10 + specDigit s 1 * 9 + specDigit s 2 * 8 +
  specDigit s 3 * 7 + specDigit s 4 * 6 + specDigit s 5 * 5 +
  specDigit s 6 * 4 + specDigit s 7 * 3 + specDigit s 8 * 2

/-- The claim's second weighted sum: digits 0..9 against weights 11..2. -/
def cpfSum2 (s : Str) : Nat :=
  specDigit s 0 * 11 + specDigit s 1 * 10 + specDigit s 2 * 9 +
  specDigit s 3 * 8 + specDigit s 4 * 7 + specDigit s 5 * 6 +
  specDigit s 6 * 5 + specDigit s 7 * 4 + specDigit s 8 * 3 +
  specDigit s 9 * 2

/-! ## Supporting lemmas -/

theorem charToNat_inj {a b : Char} (h : a.toNat = b.toNat) : a = b := by
  apply Char.eq_of_val_eq
  apply UInt32.eq_of_toBitVec_eq
  exact BitVec.toNat_injective h

theorem char_toNat_le_of_le {a c : Char} (h : a ≤ c) : a.toNat ≤ c.toNat := by
  simp only [Char.le_def, UInt32.le_def, BitVec.le_def, Char.toNat, UInt32.toNat] at h ⊢
  exact h

theorem digitVal_inj {a b : Char} (ha : isDigitCh a = true) (hb : isDigitCh b = true)
    (h : digitVal a = digitVal b) : a = b := by
  simp only [isDigitCh, Bool.and_eq_true, decide_eq_true_eq] at ha hb
  have h1 := char_toNat_le_of_le ha.1
  have h2 := char_toNat_le_of_le hb.1
  have h0 : ('0' : Char).toNat = 48 := rfl
  unfold digitVal at h
  exact charToNat_inj (by omega)

theorem only_digits_eq_self {s : Str} (h : s.all isDigitCh = true) :
    only_digits s = s :=
  List.filter_eq_self.mpr (List.all_eq_true.mp h)

theorem only_digits_idem (s : Str) : only_digits (only_digits s) = only_digits s :=
  only_digits_eq_self (List.all_eq_true.mpr fun _ ha => List.of_mem_filter ha)

/-- On an 11-digit candidate, `validate_cpf` is the replicate test followed by
the two specification check-digit comparisons. -/
theorem validate_cpf_eq_checks (s : Str) (h11 : s.length = 11)
    (hdig : s.all isDigitCh = true) :
    validate_cpf s =
      (if s = List.replicate 11 (s.getD 0 ' ') then false
       else if cpfDv (cpfSum1 s) ≠ specDigit s 9 then false
       else decide (cpfDv (cpfSum2 s) = specDigit s 10)) := by
  unfold validate_cpf
  simp only [only_digits_eq_self hdig, h11, ne_eq, not_true_eq_false, if_false]
  rfl

theorem validate_cpf_iff_checks (s : Str) (h11 : s.length = 11)
    (hdig : s.all isDigitCh = true) :
    validate_cpf s = true ↔
      (s ≠ List.replicate 11 (s.getD 0 ' ') ∧
       cpfDv (cpfSum1 s) = specDigit s 9 ∧
       cpfDv (cpfSum2 s) = specDigit s 10) := by
  rw [validate_cpf_eq_checks s h11 hdig]
  split_ifs with h1 h2
  · simp only [Bool.false_eq_true, false_iff]
    intro hc
    exact absurd h1 hc.1
  · simp only [Bool.false_eq_true, false_iff]
    intro hc
    exact h2 hc.2.1
  · simp only [decide_eq_true_eq]
    exact ⟨fun hd => ⟨h1, of_not_not h2, hd⟩, fun hc => hc.2.2⟩

theorem validate_cpf_of_bad_length (s : Str)
    (h : (only_digits s).length ≠ 11) : validate_cpf s = false := by
  simp only [validate_cpf]
  rw [if_pos h]

theorem validate_cpf_replicate (c : Char) :
    validate_cpf (List.replicate 11 c) = false := by
  by_cases hc : isDigitCh c = true
  · have hall : (List.replicate 11 c).all isDigitCh = true :=
      List.all_eq_true.mpr fun x hx => by
        rw [List.eq_of_mem_replicate hx]; exact hc
    have hg : (List.replicate 11 c).getD 0 ' ' = c := rfl
    rw [validate_cpf_eq_checks _ (by simp) hall, hg, if_pos rfl]
  · apply validate_cpf_of_bad_length
    have : only_digits (List.replicate 11 c) = [] := by
      simp only [only_digits, List.filter_eq_nil_iff]
      intro a ha
      rw [List.eq_of_mem_replicate ha]
      simp [hc]
    rw [this]
    simp

theorem validate_cpf_alter_last
    (c0 c1 c2 c3 c4 c5 c6 c7 c8 c9 c10 c' : Char)
    (hall : ([c0, c1, c2, c3, c4, c5, c6, c7, c8, c9, c10] : Str).all isDigitCh = true)
    (hc' : isDigitCh c' = true)
    (hval : validate_cpf [c0, c1, c2, c3, c4, c5, c6, c7, c8, c9, c10] = true)
    (hne : c' ≠ c10) :
    validate_cpf [c0, c1, c2, c3, c4, c5, c6, c7, c8, c9, c'] = false := by
  have hd10 : isDigitCh c10 = true := by
    simp only [List.all_cons, Bool.and_eq_true, List.all_nil] at hall
    exact hall.2.2.2.2.2.2.2.2.2.2.1
  have hall' : ([c0, c1, c2, c3, c4, c5, c6, c7, c8, c9, c'] : Str).all isDigitCh = true := by
    simp only [List.all_cons, Bool.and_eq_true, List.all_nil] at hall ⊢
    exact ⟨hall.1, hall.2.1, hall.2.2.1, hall.2.2.2.1, hall.2.2.2.2.1,
      hall.2.2.2.2.2.1, hall.2.2.2.2.2.2.1, hall.2.2.2.2.2.2.2.1,
      hall.2.2.2.2.2.2.2.2.1, hall.2.2.2.2.2.2.2.2.2.1, hc', trivial⟩
  have hdv2 : cpfDv (cpfSum2 [c0, c1, c2, c3, c4, c5, c6, c7, c8, c9, c10]) = digitVal c10 := by
    rw [validate_cpf_eq_checks _ (by rfl) hall] at hval
    split_ifs at hval
    simpa using hval
  rw [validate_cpf_eq_checks _ (by rfl) hall']
  split_ifs with g1 g2
  · rfl
  · rfl
  · have hsum : cpfSum2 [c0, c1, c2, c3, c4, c5, c6, c7, c8, c9, c'] =
        cpfSum2 [c0, c1, c2, c3, c4, c5, c6, c7, c8, c9, c10] := rfl
    rw [hsum]
    simp only [decide_eq_false_iff_not]
    intro heq
    have : digitVal c' = digitVal c10 := by
      have hsd : specDigit [c0, c1, c2, c3, c4, c5, c6, c7, c8, c9, c'] 10 =
          digitVal c' := rfl
      rw [hsd] at heq
      rw [heq] at hdv2
      exact hdv2.symm ▸ rfl
    exact hne (digitVal_inj hc' hd10 this)

/-! ## Claim theorems for the checksum validator -/

/-- Claim C1: `validate_cpf` accepts an 11-digit candidate exactly when the
digits are not all identical and both mod-11 check digits (first from weights
10..2 over digits 0..8, second from weights 11..2 over digits 0..9, each
`(sum*10) mod 11` with 10 mapped to 0) match digits 9 and 10; in particular
every all-identical 11-digit string is rejected, and altering the last digit
of a valid identifier makes it invalid. -/
theorem C1_checksum_validator :
    (∀ s : Str, s.length = 11 → s.all isDigitCh = true →
      (validate_cpf s = true ↔
        (s ≠ List.replicate 11 (s.getD 0 ' ') ∧
         cpfDv (cpfSum1 s) = specDigit s 9 ∧
         cpfDv (cpfSum2 s) = specDigit s 10))) ∧
    (∀ c : Char, validate_cpf (List.replicate 11 c) = false) ∧
    (∀ c0 c1 c2 c3 c4 c5 c6 c7 c8 c9 c10 c' : Char,
      ([c0, c1, c2, c3, c4, c5, c6, c7, c8, c9, c10] : Str).all isDigitCh = true →
      isDigitCh c' = true →
      validate_cpf [c0, c1, c2, c3, c4, c5, c6, c7, c8, c9, c10] = true →
      c' ≠ c10 →
      validate_cpf [c0, c1, c2, c3, c4, c5, c6, c7, c8, c9, c'] = false) :=
  ⟨validate_cpf_iff_checks, validate_cpf_replicate, validate_cpf_alter_last⟩

/-- Concrete instance of C1 at the checksum-valid identifier `52998224725`:
the equivalence holds there, replicated digits are rejected, and altering the
final check digit `5` to `4` is rejected. -/
theorem C1_checksum_validator_witness :
    (validate_cpf "52998224725".data = true ↔
      ("52998224725".data ≠ List.replicate 11 ("52998224725".data.getD 0 ' ') ∧
       cpfDv (cpfSum1 "52998224725".data) = specDigit "52998224725".data 9 ∧
       cpfDv (cpfSum2 "52998224725".data) = specDigit "52998224725".data 10)) ∧
    validate_cpf (List.replicate 11 '1') = false ∧
    validate_cpf ['5', '2', '9', '9', '8', '2', '2', '4', '7', '2', '4'] = false :=
  ⟨C1_checksum_validator.1 _ (by decide) (by decide),
   C1_checksum_validator.2.1 '1',
   C1_checksum_validator.2.2 '5' '2' '9' '9' '8' '2' '2' '4' '7' '2' '5' '4'
     (by decide) (by decide) (by decide) (by decide)⟩

/-- Claim C9 (implicit): `validate_cpf` is total and insensitive to non-digit
characters — it equals itself applied to the digit subsequence, a formatted
candidate validates exactly as its bare digits do, and any string with other
than 11 digit characters is rejected. -/
theorem C9_validate_digits_invariance :
    (∀ s : Str, validate_cpf s = validate_cpf (only_digits s)) ∧
    (∀ s : Str, (only_digits s).length ≠ 11 → validate_cpf s = false) ∧
    validate_cpf "123.456.789-09".data = validate_cpf "12345678909".data ∧
    validate_cpf "123.456.789-09".data = true := by
  refine ⟨?_, validate_cpf_of_bad_length, by decide, by decide⟩
  intro s
  simp only [validate_cpf]
  rw [only_digits_idem]

/-- Concrete instance of C9: a too-short candidate is rejected via the
length rule, and the formatted example validates like its digit string. -/
theorem C9_validate_digits_invariance_witness :
    validate_cpf "abc".data = false ∧
    validate_cpf "123.456.789-09".data =
      validate_cpf (only_digits "123.456.789-09".data) :=
  ⟨C9_validate_digits_invariance.2.1 "abc".data (by decide),
   C9_validate_digits_invariance.1 "123.456.789-09".data⟩

/-! ## Claim C4: every emitted value is validated -/

theorem label_window_valid {sec c : Str}
    (h : _extract_cpf_by_label_window sec = some c) : validate_cpf c = true := by
  unfold _extract_cpf_by_label_window at h
  obtain ⟨se, -, hf⟩ := List.exists_of_findSome?_eq_some h
  dsimp only at hf
  split_ifs at hf with h1 h2
  exact (Option.some.inj hf) ▸ h2

theorem cpf_regex_try_valid {sec c : Str}
    (h : cpf_regex_try sec = some c) : validate_cpf c = true := by
  unfold cpf_regex_try at h
  split at h
  · split_ifs at h with hv
    exact (Option.some.inj h) ▸ hv
  · exact Option.noConfusion h

theorem cpf_any11_try_valid {sec c : Str}
    (h : cpf_any11_try sec = some c) : validate_cpf c = true := by
  unfold cpf_any11_try at h
  split at h
  · split_ifs at h with hv
    exact (Option.some.inj h) ▸ hv
  · exact Option.noConfusion h

theorem section_cpf_valid {sec c : Str}
    (h : section_cpf sec = some c) : validate_cpf c = true := by
  unfold section_cpf at h
  split at h
  · exact (Option.some.inj h) ▸ label_window_valid (by assumption)
  · split at h
    · exact (Option.some.inj h) ▸ cpf_regex_try_valid (by assumption)
    · exact cpf_any11_try_valid h

theorem fullscan_label_try_valid {text c : Str}
    (h : fullscan_label_try text = some c) : validate_cpf c = true := by
  unfold fullscan_label_try at h
  split at h
  · dsimp only at h
    split_ifs at h with h1 h2
    exact (Option.some.inj h) ▸ h2
  · exact Option.noConfusion h

theorem fullscan_regex_try_valid {text c : Str}
    (h : fullscan_regex_try text = some c) : validate_cpf c = true := by
  unfold fullscan_regex_try at h
  obtain ⟨se, -, hf⟩ := List.exists_of_findSome?_eq_some h
  split_ifs at hf with hv
  exact (Option.some.inj hf) ▸ hv

theorem fullscan_any11_try_valid {text c : Str}
    (h : fullscan_any11_try text = some c) : validate_cpf c = true := by
  unfold fullscan_any11_try at h
  obtain ⟨se, -, hf⟩ := List.exists_of_findSome?_eq_some h
  split_ifs at hf with hv
  exact (Option.some.inj hf) ▸ hv

theorem cpf_fullscan_valid {text c : Str}
    (h : cpf_fullscan text = some c) : validate_cpf c = true := by
  unfold cpf_fullscan at h
  split at h
  · exact (Option.some.inj h) ▸ fullscan_label_try_valid (by assumption)
  · split at h
    · exact (Option.some.inj h) ▸ fullscan_regex_try_valid (by assumption)
    · exact fullscan_any11_try_valid h

theorem cpf_fallback_scan_valid {text norm c : Str}
    (h : cpf_fallback_scan text norm = some c) : validate_cpf c = true := by
  unfold cpf_fallback_scan at h
  obtain ⟨a, -, hf⟩ := List.exists_of_findSome?_eq_some h
  split at hf
  · exact section_cpf_valid hf
  · exact Option.noConfusion hf

theorem extract_cpf_valid {text cpf : Str} {status : String}
    (h : extract_cpf_first_buyer text = (some cpf, status)) :
    validate_cpf cpf = true := by
  simp only [extract_cpf_first_buyer] at h
  split_ifs at h with hsp
  · simp at h
  · split at h
    · split at h
      · have h1 := congrArg Prod.fst h
        exact (Option.some.inj h1) ▸ section_cpf_valid (by assumption)
      · simp at h
    · split at h
      · have h1 := congrArg Prod.fst h
        exact (Option.some.inj h1) ▸ cpf_fallback_scan_valid (by assumption)
      · split at h
        · have h1 := congrArg Prod.fst h
          exact (Option.some.inj h1) ▸ cpf_fullscan_valid (by assumption)
        · simp at h


theorem take13_props {s r : Str} (h : _take_first_13_digits s = some r) :
    r.length = 13 ∧ r.all isDigitCh = true := by
  unfold _take_first_13_digits at h
  dsimp only at h
  split_ifs at h with hl
  obtain rfl := Option.some.inj h
  refine ⟨by rw [List.length_take]; omega, ?_⟩
  exact List.all_eq_true.mpr fun x hx =>
    List.of_mem_filter ((List.take_sublist _ _).mem hx)

theorem try_window_props {lines : List Str} {idx : Nat} {r : Str}
    (h : try_window lines idx = some r) :
    r.length = 13 ∧ r.all isDigitCh = true := by
  simp only [try_window] at h
  split at h
  · exact Option.noConfusion h
  · split at h
    · obtain rfl := Option.some.inj h
      rename_i heq
      split at heq
      · exact take13_props heq
      · exact Option.noConfusion heq
    · split at h
      · obtain rfl := Option.some.inj h
        rename_i heq
        exact take13_props heq
      · split at h
        · exact take13_props h
        · exact Option.noConfusion h

theorem extract_contract_number_props {text n : Str}
    (h : extract_contract_number text = some n) :
    n.length = 13 ∧ n.all isDigitCh = true := by
  simp only [extract_contract_number] at h
  split_ifs at h with he
  split at h
  · obtain rfl := Option.some.inj h
    rename_i heq
    obtain ⟨i, -, hf⟩ := List.exists_of_findSome?_eq_some heq
    exact try_window_props hf
  · obtain ⟨i, -, hf⟩ := List.exists_of_findSome?_eq_some h
    split_ifs at hf
    split at hf
    · obtain rfl := Option.some.inj hf
      rename_i heq
      exact take13_props heq
    · split at hf
      · exact take13_props hf
      · exact Option.noConfusion hf

theorem extract_nome_ne_nil {text : Str} {anchors : List Matcher} {nome : Str}
    (h : extract_nome_until_comma text anchors = some nome) : nome ≠ [] := by
  simp only [extract_nome_until_comma] at h
  split at h
  · exact Option.noConfusion h
  · split_ifs at h with he
    obtain rfl := Option.some.inj h
    intro hnil
    rw [hnil] at he
    simp at he


/-- Claim C4 (invariants): `extract_cpf_first_buyer` only returns identifiers
accepted by `validate_cpf`; `extract_contract_number` only returns strings of
exactly 13 digits; `extract_nome_until_comma` only returns a non-empty name. -/
theorem C4_extractors_validated :
    (∀ (text cpf : Str) (status : String),
      extract_cpf_first_buyer text = (some cpf, status) →
      validate_cpf cpf = true) ∧
    (∀ text n : Str, extract_contract_number text = some n →
      n.length = 13 ∧ n.all isDigitCh = true) ∧
    (∀ (text : Str) (anchors : List Matcher) (nome : Str),
      extract_nome_until_comma text anchors = some nome → nome ≠ []) :=
  ⟨fun _ _ _ h => extract_cpf_valid h,
   fun _ _ h => extract_contract_number_props h,
   fun _ _ _ h => extract_nome_ne_nil h⟩

/-- Concrete instance of C4: the three extractors on small documents, with
each returned value checked. -/
theorem C4_extractors_validated_witness :
    validate_cpf "52998224725".data = true ∧
    ("1234567890123".data.length = 13 ∧ "1234567890123".data.all isDigitCh = true) ∧
    "MARIA SOUZA".data ≠ ([] : Str) :=
  ⟨C4_extractors_validated.1 "CPF 529.982.247-25".data "52998224725".data
      STATUS_CPF_FULLSCAN (by decide),
   C4_extractors_validated.2.1 "CONTRATO Nº 1234567890123 página 7".data
      "1234567890123".data (by decide),
   C4_extractors_validated.2.2 "EM NOME DE MARIA SOUZA".data ANCHORS_NOME_5_6
      "MARIA SOUZA".data (by decide)⟩

/-! ## Claims C2, C3, C7: anchor gating and section bounds -/

theorem pyspace_fixed {c : Char} (h : isPySpace c = true) :
    pyUpperChar (stripAccentChar c) = c := by
  simp only [isPySpace, Bool.or_eq_true, decide_eq_true_eq] at h
  rcases h with ((((((h | h) | h) | h) | h) | h) | h) <;> subst h <;> rfl

theorem mem_of_isPrefixOf_cons {c : Char} {rest xs : Str}
    (h : (c :: rest).isPrefixOf xs = true) : c ∈ xs := by
  cases xs with
  | nil => simp [List.isPrefixOf] at h
  | cons y t =>
    simp only [List.isPrefixOf, Bool.and_eq_true, beq_iff_eq] at h
    simp [h.1]

theorem anchor_principal_none_of_blank {text : Str}
    (h : text.all isPySpace = true) :
    reSearch ANCHOR_PRINCIPAL (pyUpper (strip_accents text)) = none := by
  unfold reSearch reSearchFrom
  rw [List.findSome?_eq_none_iff]
  intro d _
  simp only [Nat.zero_add]
  suffices hnone : ANCHOR_PRINCIPAL (pyUpper (strip_accents text)) d = none by
    rw [hnone]; rfl
  unfold ANCHOR_PRINCIPAL mSeq
  suffices hlit : mLit "DORAVANTE".data (pyUpper (strip_accents text)) d = none by
    rw [hlit]; rfl
  unfold mLit
  rw [if_neg]
  intro hpre
  have hd : 'D' ∈ (pyUpper (strip_accents text)).drop d :=
    mem_of_isPrefixOf_cons hpre
  have hd2 : 'D' ∈ pyUpper (strip_accents text) :=
    (List.drop_sublist d _).mem hd
  simp only [pyUpper, strip_accents, List.map_map, List.mem_map] at hd2
  obtain ⟨c, hc, hfc⟩ := hd2
  have hsp := List.all_eq_true.mp h c hc
  rw [Function.comp_apply, pyspace_fixed hsp] at hfc
  subst hfc
  simp [isPySpace] at hsp


theorem section_cpf_none {sec : Str}
    (h1 : _extract_cpf_by_label_window sec = none)
    (h2 : cpf_regex_try sec = none)
    (h3 : cpf_any11_try sec = none) : section_cpf sec = none := by
  simp only [section_cpf, h1, h2, h3]

/-- Claim C2: whenever the primary anchor matches but none of the three
in-section strategies (label window, separator-tolerant pattern, bare
11-digit run) yields a checksum-valid identifier inside the primary section,
`extract_cpf_first_buyer` returns no identifier with the explicit
primary-anchor error status — the fallback anchors and the full-text scan are
never consulted (the result is this error for every such text, whatever the
rest of the text contains). -/
theorem C2_primary_error_is_final :
    ∀ (text : Str) (ms me : Nat),
      reSearch ANCHOR_PRINCIPAL (pyUpper (strip_accents text)) = some (ms, me) →
      _extract_cpf_by_label_window (anchor_section text me
        (_first_end_after me (pyUpper (strip_accents text))) 25000) = none →
      cpf_regex_try (anchor_section text me
        (_first_end_after me (pyUpper (strip_accents text))) 25000) = none →
      cpf_any11_try (anchor_section text me
        (_first_end_after me (pyUpper (strip_accents text))) 25000) = none →
      extract_cpf_first_buyer text = (none, STATUS_NO_CPF_PRIMARY) := by
  intro text ms me hanchor h1 h2 h3
  have hnb : ¬ text.all isPySpace = true := by
    intro hb
    rw [anchor_principal_none_of_blank hb] at hanchor
    exact Option.noConfusion hanchor
  simp only [extract_cpf_first_buyer, hnb, Bool.false_eq_true, if_false,
    hanchor, section_cpf_none h1 h2 h3]

/-- Concrete instance of C2: a document consisting of the primary anchor and
no identifier at all. -/
theorem C2_primary_error_is_final_witness :
    extract_cpf_first_buyer "DORAVANTE DENOMINADO(S) DEVEDOR(ES): NADA".data =
      (none, STATUS_NO_CPF_PRIMARY) :=
  C2_primary_error_is_final _ 0 36 (by decide) (by decide) (by decide) (by decide)


/-- Counterexample to claim C3 as stated: in this text a fallback anchor
(`COMPRADOR`, match at offset 0) precedes the primary anchor (match at offset
25), the primary section yields no valid identifier, and the fallback tier
would find the valid identifier `52998224725` — yet the function returns the
primary-anchor error: the fallback anchors are skipped, not attempted. -/
theorem C3_fallback_skipped_counterexample :
    reSearch FB_COMPRADOR (pyUpper (strip_accents C3_ce_text)) = some (0, 9) ∧
    reSearch ANCHOR_PRINCIPAL (pyUpper (strip_accents C3_ce_text)) = some (25, 61) ∧
    cpf_fallback_scan C3_ce_text (pyUpper (strip_accents C3_ce_text)) =
      some "52998224725".data ∧
    extract_cpf_first_buyer C3_ce_text = (none, STATUS_NO_CPF_PRIMARY) := by
  refine ⟨by decide, by decide, by decide, by decide⟩

/-- Claim C3 amended: with both a fallback anchor earlier in the text and
the primary anchor later, the primary anchor's section is the one searched
— but when that section yields no checksum-valid identifier the function
returns the primary-anchor error; the fallback anchors are NOT attempted
(the source returns from the primary branch unconditionally). -/
theorem C3_primary_priority :
    ∀ (text : Str) (a : Matcher) (msF meF ms me : Nat),
      a ∈ ANCHORS_FALLBACK →
      reSearch a (pyUpper (strip_accents text)) = some (msF, meF) →
      reSearch ANCHOR_PRINCIPAL (pyUpper (strip_accents text)) = some (ms, me) →
      msF < ms →
      extract_cpf_first_buyer text =
        (match section_cpf (anchor_section text me
            (_first_end_after me (pyUpper (strip_accents text))) 25000) with
         | some cpf => (some cpf, STATUS_OK)
         | none => (none, STATUS_NO_CPF_PRIMARY)) := by
  intro text a msF meF ms me hmem hfb hanchor hlt
  have hnb : ¬ text.all isPySpace = true := by
    intro hb
    rw [anchor_principal_none_of_blank hb] at hanchor
    exact Option.noConfusion hanchor
  simp only [extract_cpf_first_buyer, hnb, Bool.false_eq_true, if_false, hanchor]

/-- Concrete instance of the amended C3 at the counterexample text. -/
theorem C3_primary_priority_witness :
    extract_cpf_first_buyer C3_ce_text =
      (match section_cpf (anchor_section C3_ce_text 61
          (_first_end_after 61 (pyUpper (strip_accents C3_ce_text))) 25000) with
       | some cpf => (some cpf, STATUS_OK)
       | none => (none, STATUS_NO_CPF_PRIMARY)) :=
  C3_primary_priority C3_ce_text FB_COMPRADOR 0 9 25 61
    (by unfold ANCHORS_FALLBACK; exact List.mem_cons_self _ _)
    (by decide) (by decide) (by decide)


theorem first_end_after_ge {start : Nat} {norm : Str}
    (h : start ≤ norm.length) : start ≤ _first_end_after start norm := by
  unfold _first_end_after
  have hgen : ∀ (l : List Matcher) (e : Nat), start ≤ e →
      start ≤ l.foldl (fun e m =>
        match reSearch m (norm.drop start) with
        | some (st, _) => if start + st < e then start + st else e
        | none => e) e := by
    intro l
    induction l with
    | nil => intro e he; exact he
    | cons m rest ih =>
      intro e he
      simp only [List.foldl_cons]
      apply ih
      split
      · split
        · exact Nat.le_add_right start _
        · exact he
      · exact he
  exact hgen END_ANCHORS norm.length h

theorem anchor_section_of_lt {text : Str} {start ep maxW : Nat}
    (h : start < ep) :
    anchor_section text start ep maxW =
      (text.drop start).take (min maxW (ep - start)) := by
  simp only [anchor_section]
  rw [show ep ⊔ start = ep by omega, if_neg (by omega)]

theorem anchor_section_of_eq {text : Str} {start maxW : Nat} :
    anchor_section text start start maxW = (text.drop start).take maxW := by
  simp [anchor_section]

/-- Claim C7 amended: the section start never exceeds the terminator
position (`_first_end_after` is at least the anchor end, so bounds are never
negative), and when the nearest terminator starts strictly after the anchor
end the section is `text[anchorEnd : anchorEnd + min(maxWindow, term -
anchorEnd)]`; but when the terminator coincides with the anchor end the code
takes the full `maxWindow`-length section instead of the empty section the
claim requires. -/
theorem C7_section_bounds :
    ∀ (start : Nat) (norm : Str), start ≤ norm.length →
      start ≤ _first_end_after start norm ∧
      ∀ (text : Str) (maxW : Nat),
        (start < _first_end_after start norm →
          anchor_section text start (_first_end_after start norm) maxW =
            (text.drop start).take (min maxW (_first_end_after start norm - start))) ∧
        (_first_end_after start norm = start →
          anchor_section text start (_first_end_after start norm) maxW =
            (text.drop start).take maxW) := by
  intro start norm h
  refine ⟨first_end_after_ge h, fun text maxW => ⟨fun hlt => anchor_section_of_lt hlt, fun heq => ?_⟩⟩
  rw [heq]
  exact anchor_section_of_eq

/-- Counterexample to claim C7 as stated: here the terminator `OBJETO`
occurs exactly at the primary anchor's end (offset 36), so the claim requires
an empty section and hence the primary-anchor error; instead the code takes a
full 25000-character window, finds the identifier after the terminator, and
returns it with status OK. -/
theorem C7_full_window_counterexample :
    reSearch ANCHOR_PRINCIPAL (pyUpper (strip_accents C7_ce_text)) = some (0, 36) ∧
    _first_end_after 36 (pyUpper (strip_accents C7_ce_text)) = 36 ∧
    anchor_section C7_ce_text 36 36 25000 ≠ [] ∧
    extract_cpf_first_buyer C7_ce_text = (some "52998224725".data, STATUS_OK) := by
  refine ⟨by decide, by decide, by decide, by decide⟩

/-- Concrete instance of the amended C7, exercising both the
terminator-at-anchor-end branch and the strict-terminator branch. -/
theorem C7_section_bounds_witness :
    (0 ≤ _first_end_after 0 "OBJETO 123".data ∧
     anchor_section "OBJETO 123".data 0 (_first_end_after 0 "OBJETO 123".data) 5 =
       ("OBJETO 123".data.drop 0).take 5) ∧
    anchor_section "X OBJETO".data 0 (_first_end_after 0 "X OBJETO".data) 99 =
      ("X OBJETO".data.drop 0).take (min 99 (_first_end_after 0 "X OBJETO".data - 0)) :=
  ⟨⟨(C7_section_bounds 0 "OBJETO 123".data (by decide)).1,
    ((C7_section_bounds 0 "OBJETO 123".data (by decide)).2 "OBJETO 123".data 5).2 (by decide)⟩,
   ((C7_section_bounds 0 "X OBJETO".data (by decide)).2 "X OBJETO".data 99).1 (by decide)⟩


/-! ## Claim C5: first 13 digits, not last, not greedy -/

theorem splitlinesAux_no_break {s : Str} (h : ∀ c ∈ s, isLineBreak c = false) :
    ∀ acc : Str, splitlinesAux s acc = [acc.reverse ++ s] := by
  induction s with
  | nil => intro acc; simp [splitlinesAux]
  | cons c rest ih =>
    intro acc
    have hc : isLineBreak c = false := h c (List.mem_cons_self c rest)
    have hcr : ¬ c = '\r' := by
      intro hh; rw [hh] at hc; simp [isLineBreak] at hc
    have hrest : ∀ x ∈ rest, isLineBreak x = false :=
      fun x hx => h x (List.mem_cons_of_mem c hx)
    rw [splitlinesAux.eq_def]
    split
    · rename_i heq
      exact absurd heq (by simp)
    · rename_i heq
      have h1 : c = '\r' := (List.cons.inj heq).1
      exact absurd h1 hcr
    · rename_i c' rest' hno heq
      obtain ⟨h1, h2⟩ := List.cons.inj heq
      subst h1
      subst h2
      rw [if_neg (by rw [hc]; exact Bool.false_ne_true)]
      rw [ih hrest]
      simp

theorem splitlines_single {ln : Str} (hne : ln ≠ [])
    (h : ∀ c ∈ ln, isLineBreak c = false) : splitlinesPy ln = [ln] := by
  cases ln with
  | nil => exact absurd rfl hne
  | cons c rest =>
    rw [show splitlinesPy (c :: rest) = splitlinesAux (c :: rest) [] from rfl,
      splitlinesAux_no_break h]
    simp

theorem take13_first {s r : Str} (h : _take_first_13_digits s = some r) :
    r = (s.filter isDigitCh).take 13 := by
  unfold _take_first_13_digits at h
  dsimp only at h
  split_ifs at h with hl
  exact (Option.some.inj h).symm

theorem try_window_label_first13 {lines : List Str} {idx k e st en : Nat}
    (hcon : reSearch (mLitCI "CONTRATO".data) (contract_window lines idx) = some (k, e))
    (hn : reSearch N_LABEL ((contract_window lines idx).drop e) = some (st, en))
    (hd : 13 ≤ ((((contract_window lines idx).drop e).drop en).filter isDigitCh).length) :
    try_window lines idx =
      some (((((contract_window lines idx).drop e).drop en).filter isDigitCh).take 13) := by
  have h13 : _take_first_13_digits (((contract_window lines idx).drop e).drop en) =
      some (((((contract_window lines idx).drop e).drop en).filter isDigitCh).take 13) := by
    unfold _take_first_13_digits
    dsimp only
    rw [if_pos hd]
  simp only [try_window, hcon, hn, h13]

theorem extract_contract_single_line {ln n : Str}
    (hb : ∀ c ∈ ln, isLineBreak c = false)
    (hkw : containsSub "CONTRATO".data (pyUpper (strip_accents ln)) = true)
    (htw : try_window [ln] 0 = some n) :
    extract_contract_number ln = some n := by
  have hne : ln ≠ [] := by
    intro hnil
    subst hnil
    revert hkw
    decide
  simp only [extract_contract_number]
  rw [if_neg (by rw [List.isEmpty_eq_false.mpr hne]; exact Bool.false_ne_true)]
  rw [splitlines_single hne hb]
  simp only [List.map_cons, List.map_nil, List.length_cons, List.length_nil,
    List.filter, List.getD, List.getElem?_cons_zero, Option.getD_some, hkw]
  simp only [List.get?_cons_zero, Option.getD_some, hkw]
  simp only [List.findSome?, htw]


theorem try_window_nolabel_first13 {lines : List Str} {idx k e : Nat}
    (hcon : reSearch (mLitCI "CONTRATO".data) (contract_window lines idx) = some (k, e))
    (hn : reSearch N_LABEL ((contract_window lines idx).drop e) = none)
    (hd : 13 ≤ (((contract_window lines idx).drop e).filter isDigitCh).length) :
    try_window lines idx =
      some ((((contract_window lines idx).drop e).filter isDigitCh).take 13) := by
  have h13 : _take_first_13_digits ((contract_window lines idx).drop e) =
      some ((((contract_window lines idx).drop e).filter isDigitCh).take 13) := by
    unfold _take_first_13_digits
    dsimp only
    rw [if_pos hd]
  simp only [try_window, hcon, hn, h13]

/-- Claim C5: on a line carrying the CONTRACT keyword, the extractor strips
every non-digit character from the text following the number label (or
following the keyword) and returns the first 13 digits encountered — stated
as: `_take_first_13_digits` always returns `(filter digits).take 13`; the
per-line window try returns exactly the first 13 digits after the label when
at least 13 digits follow it, and the first 13 digits after the keyword when
no label is present; a single keyword line propagates its window result; and
the reference line returns `1234567890123`, not a string ending
in the page number 7. -/
theorem C5_contract_first_13 :
    (∀ s r : Str, _take_first_13_digits s = some r →
      r = (s.filter isDigitCh).take 13) ∧
    (∀ (lines : List Str) (idx k e st en : Nat),
      reSearch (mLitCI "CONTRATO".data) (contract_window lines idx) = some (k, e) →
      reSearch N_LABEL ((contract_window lines idx).drop e) = some (st, en) →
      13 ≤ ((((contract_window lines idx).drop e).drop en).filter isDigitCh).length →
      try_window lines idx =
        some (((((contract_window lines idx).drop e).drop en).filter isDigitCh).take 13)) ∧
    (∀ (lines : List Str) (idx k e : Nat),
      reSearch (mLitCI "CONTRATO".data) (contract_window lines idx) = some (k, e) →
      reSearch N_LABEL ((contract_window lines idx).drop e) = none →
      13 ≤ (((contract_window lines idx).drop e).filter isDigitCh).length →
      try_window lines idx =
        some ((((contract_window lines idx).drop e).filter isDigitCh).take 13)) ∧
    (∀ ln n : Str, (∀ c ∈ ln, isLineBreak c = false) →
      containsSub "CONTRATO".data (pyUpper (strip_accents ln)) = true →
      try_window [ln] 0 = some n →
      extract_contract_number ln = some n) ∧
    extract_contract_number "CONTRATO Nº 1234567890123 página 7".data =
      some "1234567890123".data :=
  ⟨fun _ _ h => take13_first h,
   fun _ _ _ _ _ _ hc hn hd => try_window_label_first13 hc hn hd,
   fun _ _ _ _ hc hn hd => try_window_nolabel_first13 hc hn hd,
   fun _ _ hb hkw htw => extract_contract_single_line hb hkw htw,
   by decide⟩

/-- Concrete instance of C5 at the reference line: the window try returns the
first 13 digits after the `Nº` label, the whole extractor agrees, and a
direct check of the first-13 characterisation. -/
theorem C5_contract_first_13_witness :
    try_window ["CONTRATO Nº 1234567890123 página 7".data] 0 =
      some (((((contract_window ["CONTRATO Nº 1234567890123 página 7".data] 0).drop 8).drop 4).filter isDigitCh).take 13) ∧
    try_window ["CONTRATO: 1234567890123 e 7".data] 0 =
      some ((((contract_window ["CONTRATO: 1234567890123 e 7".data] 0).drop 8).filter isDigitCh).take 13) ∧
    extract_contract_number "CONTRATO Nº 1234567890123 página 7".data =
      some "1234567890123".data ∧
    "1234567890123".data = ("x1234567890123 e 7".data.filter isDigitCh).take 13 :=
  ⟨C5_contract_first_13.2.1 _ 0 0 8 1 4 (by decide) (by decide) (by decide),
   C5_contract_first_13.2.2.1 ["CONTRATO: 1234567890123 e 7".data] 0 0 8
     (by decide) (by decide) (by decide),
   C5_contract_first_13.2.2.2.1 _ _ (by decide) (by decide) (by decide),
   C5_contract_first_13.1 "x1234567890123 e 7".data "1234567890123".data (by decide)⟩

/-! ## Claim C6: the name extractor's cut rule -/

theorem nat_min_or (a b : Nat) : min a b = a ∨ min a b = b := by
  rcases Nat.le_total a b with h | h
  · exact Or.inl (Nat.min_eq_left h)
  · exact Or.inr (Nat.min_eq_right h)

theorem foldl_min_eq {p : Nat} {rest : List Nat} {m : Nat}
    (hmem : m ∈ p :: rest) (hle : ∀ q ∈ p :: rest, m ≤ q) :
    rest.foldl min p = m := by
  have h : (p :: rest).min? = some (rest.foldl min p) := rfl
  have h2 : (p :: rest).min? = some m := by
    rw [List.min?_eq_some_iff Nat.le_refl nat_min_or (fun a b c => Nat.le_min)]
    exact ⟨hmem, hle⟩
  exact Option.some.inj (h.symm.trans h2)

/-- Claim C6: with a matching anchor, the candidate is the tail cut at the
single smallest position among the first comma and the first match of each
stopword searched independently (first conjunct); with no comma and no
stopword it is the first non-blank line of the tail (second conjunct); both
then sanitised by `clean_nome`; the two reference texts return
`JOAO DA SILVA` and `MARIA SOUZA`. -/
theorem C6_nome_cut_rule :
    (∀ (text : Str) (anchors : List Matcher) (start_pos p : Nat),
      anchors.findSome? (fun a => (reSearch a (strip_accents (pyUpper text))).map Prod.snd) =
        some start_pos →
      p ∈ cut_positions ((strip_accents (pyUpper text)).drop start_pos) →
      (∀ q ∈ cut_positions ((strip_accents (pyUpper text)).drop start_pos), p ≤ q) →
      extract_nome_until_comma text anchors =
        (if (clean_nome (((strip_accents (pyUpper text)).drop start_pos).take p)).isEmpty then none
         else some (clean_nome (((strip_accents (pyUpper text)).drop start_pos).take p)))) ∧
    (∀ (text : Str) (anchors : List Matcher) (start_pos : Nat),
      anchors.findSome? (fun a => (reSearch a (strip_accents (pyUpper text))).map Prod.snd) =
        some start_pos →
      cut_positions ((strip_accents (pyUpper text)).drop start_pos) = [] →
      extract_nome_until_comma text anchors =
        (if (clean_nome (firstNonBlankLine ((strip_accents (pyUpper text)).drop start_pos))).isEmpty then none
         else some (clean_nome (firstNonBlankLine ((strip_accents (pyUpper text)).drop start_pos))))) ∧
    extract_nome_until_comma "EM NOME DE JOAO DA SILVA, CPF 123.456.789-09".data
      ANCHORS_NOME_5_6 = some "JOAO DA SILVA".data ∧
    extract_nome_until_comma "EM NOME DE MARIA SOUZA\noutros dados".data
      ANCHORS_NOME_5_6 = some "MARIA SOUZA".data := by
  refine ⟨?_, ?_, by decide, by decide⟩
  · intro text anchors start_pos p hanchor hmem hle
    cases hc : cut_positions ((strip_accents (pyUpper text)).drop start_pos) with
    | nil => rw [hc] at hmem; exact absurd hmem (List.not_mem_nil p)
    | cons q rest =>
      rw [hc] at hmem hle
      simp only [extract_nome_until_comma, hanchor, hc]
      rw [foldl_min_eq hmem hle]
  · intro text anchors start_pos hanchor hc
    simp only [extract_nome_until_comma, hanchor, hc]

/-- Concrete instance of C6: the comma-cut case at position 14 of the first
reference text (comma at 14, the `CPF` stopword at 16) and the
first-non-blank-line case of the second. -/
theorem C6_nome_cut_rule_witness :
    extract_nome_until_comma "EM NOME DE JOAO DA SILVA, CPF 123.456.789-09".data
      ANCHORS_NOME_5_6 =
      (if (clean_nome (((strip_accents (pyUpper "EM NOME DE JOAO DA SILVA, CPF 123.456.789-09".data)).drop 10).take 14)).isEmpty then none
       else some (clean_nome (((strip_accents (pyUpper "EM NOME DE JOAO DA SILVA, CPF 123.456.789-09".data)).drop 10).take 14))) ∧
    extract_nome_until_comma "EM NOME DE MARIA SOUZA\noutros dados".data
      ANCHORS_NOME_5_6 =
      (if (clean_nome (firstNonBlankLine ((strip_accents (pyUpper "EM NOME DE MARIA SOUZA\noutros dados".data)).drop 10))).isEmpty then none
       else some (clean_nome (firstNonBlankLine ((strip_accents (pyUpper "EM NOME DE MARIA SOUZA\noutros dados".data)).drop 10)))) :=
  ⟨C6_nome_cut_rule.1 _ ANCHORS_NOME_5_6 10 14 (by decide) (by decide) (by decide),
   C6_nome_cut_rule.2.1 _ ANCHORS_NOME_5_6 10 (by decide) (by decide)⟩

/-! ## Claim C10: well-formedness of returned names -/

theorem noDoubleSpace_tail {a : Char} {rest : Str}
    (h : noDoubleSpace (a :: rest) = true) : noDoubleSpace rest = true := by
  cases rest with
  | nil => rfl
  | cons b t =>
    simp only [noDoubleSpace, Bool.and_eq_true] at h
    exact h.2

theorem noDoubleSpace_cons {a : Char} {X : Str}
    (hX : noDoubleSpace X = true)
    (hh : ∀ x, X.head? = some x → a = ' ' → x ≠ ' ') :
    noDoubleSpace (a :: X) = true := by
  cases X with
  | nil => rfl
  | cons x xs =>
    simp only [noDoubleSpace, Bool.and_eq_true, Bool.not_eq_true']
    refine ⟨?_, hX⟩
    simp only [Bool.and_eq_false_iff, decide_eq_false_iff_not]
    by_cases ha : a = ' '
    · exact Or.inr (by simpa using hh x rfl ha)
    · exact Or.inl (by simpa using ha)

theorem mem_collapseWsAux {c : Char} :
    ∀ (b : Bool) (s : Str), c ∈ collapseWsAux b s →
      c = ' ' ∨ (c ∈ s ∧ isPySpace c = false) := by
  intro b s
  induction s generalizing b with
  | nil => intro h; simp [collapseWsAux] at h
  | cons a rest ih =>
    intro h
    by_cases hsp : isPySpace a = true
    · cases b with
      | true =>
        simp only [collapseWsAux, hsp, if_true] at h
        rcases ih true h with h1 | ⟨h2, h3⟩
        · exact Or.inl h1
        · exact Or.inr ⟨List.mem_cons_of_mem a h2, h3⟩
      | false =>
        simp only [collapseWsAux, hsp, if_true] at h
        rcases List.mem_cons.mp h with h1 | h1
        · exact Or.inl h1
        · rcases ih true h1 with h2 | ⟨h2, h3⟩
          · exact Or.inl h2
          · exact Or.inr ⟨List.mem_cons_of_mem a h2, h3⟩
    · simp only [collapseWsAux, hsp, if_false] at h
      rcases List.mem_cons.mp h with h1 | h1
      · subst h1
        exact Or.inr ⟨List.mem_cons_self c rest, by simpa using hsp⟩
      · rcases ih false h1 with h2 | ⟨h2, h3⟩
        · exact Or.inl h2
        · exact Or.inr ⟨List.mem_cons_of_mem a h2, h3⟩

theorem head_collapseWsAux_true {c : Char} :
    ∀ s : Str, (collapseWsAux true s).head? = some c → isPySpace c = false := by
  intro s
  induction s with
  | nil => intro h; simp [collapseWsAux] at h
  | cons a rest ih =>
    intro h
    by_cases hsp : isPySpace a = true
    · simp only [collapseWsAux, hsp, if_true] at h
      exact ih h
    · simp only [collapseWsAux, hsp, if_false, List.head?_cons] at h
      rw [← Option.some.inj h]
      simpa using hsp

theorem noDoubleSpace_collapseWsAux :
    ∀ (b : Bool) (s : Str), noDoubleSpace (collapseWsAux b s) = true := by
  intro b s
  induction s generalizing b with
  | nil => cases b <;> rfl
  | cons a rest ih =>
    by_cases hsp : isPySpace a = true
    · cases b with
      | true => simpa only [collapseWsAux, hsp, if_true] using ih true
      | false =>
        simp only [collapseWsAux, hsp, if_true]
        refine noDoubleSpace_cons (ih true) ?_
        intro x hx _
        intro hx'
        subst hx'
        have := head_collapseWsAux_true rest hx
        simp [isPySpace] at this
    · simp only [collapseWsAux, hsp, if_false]
      refine noDoubleSpace_cons (ih false) ?_
      intro x _ ha
      exact absurd ha (by intro hh; rw [hh] at hsp; simp [isPySpace] at hsp)


theorem noDoubleSpace_dropWhile {p : Char → Bool} :
    ∀ {l : Str}, noDoubleSpace l = true → noDoubleSpace (l.dropWhile p) = true := by
  intro l
  induction l with
  | nil => intro h; exact h
  | cons a rest ih =>
    intro h
    by_cases hp : p a = true
    · rw [List.dropWhile_cons_of_pos hp]
      exact ih (noDoubleSpace_tail h)
    · rw [List.dropWhile_cons_of_neg (by simpa using hp)]
      exact h

theorem head_dropWhile {p : Char → Bool} {c : Char} :
    ∀ {l : Str}, (l.dropWhile p).head? = some c → p c = false := by
  intro l
  induction l with
  | nil => intro h; simp [List.dropWhile] at h
  | cons a rest ih =>
    intro h
    by_cases hp : p a = true
    · rw [List.dropWhile_cons_of_pos hp] at h
      exact ih h
    · rw [List.dropWhile_cons_of_neg (by simpa using hp)] at h
      simp only [List.head?_cons] at h
      rw [← Option.some.inj h]
      simpa using hp

theorem mem_rstripSp {c : Char} : ∀ {s : Str}, c ∈ rstripSp s → c ∈ s := by
  intro s
  induction s with
  | nil => intro h; simp [rstripSp] at h
  | cons a rest ih =>
    intro h
    rw [rstripSp] at h
    revert h
    split
    · split_ifs
      · intro h; simp at h
      · intro h
        simp only [List.mem_singleton] at h
        simp [h]
    · intro h
      rcases List.mem_cons.mp h with h1 | h1
      · simp [h1]
      · exact List.mem_cons_of_mem a (ih h1)

theorem head_rstripSp : ∀ {s : Str}, rstripSp s ≠ [] → (rstripSp s).head? = s.head? := by
  intro s
  induction s with
  | nil => intro h; exact absurd rfl h
  | cons a rest ih =>
    intro h
    rw [rstripSp]
    rw [rstripSp] at h
    revert h
    split
    · split_ifs
      · intro h; exact absurd rfl h
      · intro h; rfl
    · intro h; rfl

theorem noDoubleSpace_rstripSp :
    ∀ {s : Str}, noDoubleSpace s = true → noDoubleSpace (rstripSp s) = true := by
  intro s
  induction s with
  | nil => intro h; exact h
  | cons a rest ih =>
    intro h
    rw [rstripSp]
    split
    · split_ifs <;> rfl
    · rename_i hr
      have hr2 : noDoubleSpace (rstripSp rest) = true := ih (noDoubleSpace_tail h)
      refine noDoubleSpace_cons hr2 ?_
      intro x hx ha hx'
      subst ha
      subst hx'
      have hne : rstripSp rest ≠ [] := fun hh => hr hh
      have hhd := head_rstripSp hne
      cases rest with
      | nil => exact hr rfl
      | cons b t =>
        simp only [List.head?_cons] at hhd
        have hb : (' ' : Char) = b := Option.some.inj (hx.symm.trans hhd)
        rw [← hb] at h
        simp [noDoubleSpace] at h

theorem getLast_rstripSp {c : Char} :
    ∀ {s : Str}, (rstripSp s).getLast? = some c → isPySpace c = false := by
  intro s
  induction s with
  | nil => intro h; simp [rstripSp] at h
  | cons a rest ih =>
    intro h
    rw [rstripSp] at h
    revert h
    split
    · split_ifs with hsp
      · intro h; simp at h
      · intro h
        simp only [List.getLast?_singleton] at h
        rw [← Option.some.inj h]
        simpa using hsp
    · rename_i hr
      intro h
      cases hrr : rstripSp rest with
      | nil => exact absurd hrr hr
      | cons x xs =>
        rw [hrr] at h
        rw [List.getLast?_cons_cons] at h
        exact ih (by rw [hrr]; exact h)


theorem clean_nome_chars {cand : Str} {c : Char} (h : c ∈ clean_nome cand) :
    ('A' ≤ c ∧ c ≤ 'Z') ∨ c = ' ' := by
  unfold clean_nome stripPy at h
  have h1 := mem_rstripSp h
  have h2 : c ∈ collapseWs (cand.map fun c =>
      if ('A' ≤ c ∧ c ≤ 'Z') ∨ c = ' ' ∨ c = '\n' then c else ' ') :=
    (List.dropWhile_sublist _).mem h1
  rcases mem_collapseWsAux false _ h2 with h3 | ⟨h3, h4⟩
  · exact Or.inr h3
  · obtain ⟨x, -, hkc⟩ := List.mem_map.mp h3
    by_cases hcond : ('A' ≤ x ∧ x ≤ 'Z') ∨ x = ' ' ∨ x = '\n'
    · rw [if_pos hcond] at hkc
      subst hkc
      rcases hcond with h5 | h5 | h5
      · exact Or.inl h5
      · exact Or.inr h5
      · rw [h5] at h4
        simp [isPySpace] at h4
    · rw [if_neg hcond] at hkc
      exact Or.inr hkc.symm

theorem clean_nome_noDouble (cand : Str) :
    noDoubleSpace (clean_nome cand) = true :=
  noDoubleSpace_rstripSp (noDoubleSpace_dropWhile (noDoubleSpace_collapseWsAux false _))

theorem clean_nome_head {cand : Str} {c : Char}
    (h : (clean_nome cand).head? = some c) : c ≠ ' ' := by
  unfold clean_nome stripPy at h
  have hne : rstripSp ((collapseWs (cand.map fun c =>
      if ('A' ≤ c ∧ c ≤ 'Z') ∨ c = ' ' ∨ c = '\n' then c else ' ')).dropWhile isPySpace) ≠ [] := by
    intro hh
    rw [hh] at h
    exact Option.noConfusion h
  rw [head_rstripSp hne] at h
  have := head_dropWhile h
  intro hc
  rw [hc] at this
  simp [isPySpace] at this

theorem clean_nome_last {cand : Str} {c : Char}
    (h : (clean_nome cand).getLast? = some c) : c ≠ ' ' := by
  unfold clean_nome stripPy at h
  have := getLast_rstripSp h
  intro hc
  rw [hc] at this
  simp [isPySpace] at this

theorem extract_nome_eq_clean {text : Str} {anchors : List Matcher} {nome : Str}
    (h : extract_nome_until_comma text anchors = some nome) :
    ∃ cand : Str, nome = clean_nome cand := by
  simp only [extract_nome_until_comma] at h
  split at h
  · exact Option.noConfusion h
  · split_ifs at h with he
    exact ⟨_, (Option.some.inj h).symm⟩

/-- Claim C10 (implicit): a returned name is non-empty, contains only the
unaccented capitals A..Z and single spaces (no digits, punctuation, accents,
lower case, line breaks or consecutive spaces), and carries no leading or
trailing whitespace. -/
theorem C10_nome_sanitized :
    ∀ (text : Str) (anchors : List Matcher) (nome : Str),
      extract_nome_until_comma text anchors = some nome →
      nome ≠ [] ∧
      nome.all (fun c => ('A' ≤ c && c ≤ 'Z') || c = ' ') = true ∧
      noDoubleSpace nome = true ∧
      (∀ c, nome.head? = some c → c ≠ ' ') ∧
      (∀ c, nome.getLast? = some c → c ≠ ' ') := by
  intro text anchors nome h
  obtain ⟨cand, rfl⟩ := extract_nome_eq_clean h
  refine ⟨extract_nome_ne_nil h, ?_, clean_nome_noDouble cand,
    fun c hc => clean_nome_head hc, fun c hc => clean_nome_last hc⟩
  refine List.all_eq_true.mpr fun c hc => ?_
  rcases clean_nome_chars hc with ⟨h1, h2⟩ | h1
  · simp [h1, h2]
  · simp [h1]


/-- Concrete instance of C10 at the first reference text. -/
theorem C10_nome_sanitized_witness :
    "JOAO DA SILVA".data ≠ ([] : Str) ∧
    "JOAO DA SILVA".data.all (fun c => ('A' ≤ c && c ≤ 'Z') || c = ' ') = true ∧
    noDoubleSpace "JOAO DA SILVA".data = true ∧
    ('J' : Char) ≠ ' ' ∧ ('A' : Char) ≠ ' ' :=
  have h := C10_nome_sanitized
    "EM NOME DE JOAO DA SILVA, CPF 123.456.789-09".data ANCHORS_NOME_5_6
    "JOAO DA SILVA".data (by decide)
  ⟨h.1, h.2.1, h.2.2.1, h.2.2.2.1 'J' (by decide), h.2.2.2.2 'A' (by decide)⟩

/-! ## Claim C8: filename collision resolution -/

theorem destLoop_least {mk : Nat → Str} {dir : List Str} :
    ∀ (fuel i : Nat), (∃ k, i ≤ k ∧ k ≤ i + fuel ∧ mk k ∉ dir) →
      ∃ j, destLoop mk dir i fuel = mk j ∧ i ≤ j ∧ mk j ∉ dir ∧
        ∀ k, i ≤ k → k < j → mk k ∈ dir := by
  intro fuel
  induction fuel with
  | zero =>
    rintro i ⟨k, hk1, hk2, hk3⟩
    have hki : k = i := by omega
    subst hki
    exact ⟨k, rfl, Nat.le_refl k, hk3, fun k' h1 h2 => absurd h1 (by omega)⟩
  | succ fuel ih =>
    rintro i ⟨k, hk1, hk2, hk3⟩
    by_cases hmem : mk i ∈ dir
    · have hki : k ≠ i := fun hh => hk3 (hh ▸ hmem)
      obtain ⟨j, hj1, hj2, hj3, hj4⟩ := ih (i + 1) ⟨k, by omega, by omega, hk3⟩
      refine ⟨j, ?_, by omega, hj3, ?_⟩
      · rw [destLoop, if_pos hmem]
        exact hj1
      · intro k' h1 h2
        rcases Nat.eq_or_lt_of_le h1 with h3 | h3
        · exact h3 ▸ hmem
        · exact hj4 k' h3 h2
    · exact ⟨i, by rw [destLoop, if_neg hmem], Nat.le_refl i, hmem,
        fun k' h1 h2 => absurd h1 (by omega)⟩

theorem exists_free_index {mk : Nat → Str} (hinj : Function.Injective mk)
    (dir : List Str) : ∃ k, 1 ≤ k ∧ k ≤ dir.length + 1 ∧ mk k ∉ dir := by
  by_contra hcon
  push_neg at hcon
  have hsub : (Finset.Icc 1 (dir.length + 1)).image mk ⊆ dir.toFinset := by
    intro x hx
    obtain ⟨k, hk, rfl⟩ := Finset.mem_image.mp hx
    rw [Finset.mem_Icc] at hk
    exact List.mem_toFinset.mpr (hcon k hk.1 hk.2)
  have h1 := Finset.card_le_card hsub
  rw [Finset.card_image_of_injective _ hinj, Nat.card_Icc] at h1
  have h2 := List.toFinset_card_le dir
  omega

theorem resolve_name_free {base : Str} {mk : Nat → Str} {dir : List Str}
    (h : base ∉ dir) : resolve_name base mk dir = base := by
  unfold resolve_name
  rw [if_neg h]

theorem resolve_name_collision {base : Str} {mk : Nat → Str} {dir : List Str}
    {j : Nat} (hinj : Function.Injective mk) (hbase : base ∈ dir)
    (hj1 : 1 ≤ j) (hj2 : mk j ∉ dir)
    (hleast : ∀ k, 1 ≤ k → k < j → mk k ∈ dir) :
    resolve_name base mk dir = mk j := by
  unfold resolve_name
  rw [if_pos hbase]
  obtain ⟨k0, h1, h2, h3⟩ := exists_free_index hinj dir
  obtain ⟨j', hj'1, hj'2, hj'3, hj'4⟩ :=
    destLoop_least (dir.length + 1) 1 ⟨k0, h1, by omega, h3⟩
  have hjj : j = j' := by
    rcases Nat.lt_trichotomy j j' with h | h | h
    · exact absurd (hj'4 j hj1 h) hj2
    · exact h
    · exact absurd (hleast j' hj'2 h) hj'3
  rw [hj'1, hjj]


/-- Claim C8: the resolver returns the base name when it does not collide
with the destination snapshot; on collision it returns the suffixed variant
with the smallest index that does not collide (given that the suffixing map
is injective, as the decimal `_1`, `_2`, … and `.1`, `.2`, … templates are);
in particular, with `12345678909_1234567890123.pdf` present the contract
template resolves to `12345678909_1234567890123_1.pdf`, and the certificate
template appends `.1`. -/
theorem C8_filename_resolution :
    (∀ (base : Str) (mk : Nat → Str) (dir : List Str), base ∉ dir →
      resolve_name base mk dir = base) ∧
    (∀ (base : Str) (mk : Nat → Str) (dir : List Str) (j : Nat),
      Function.Injective mk → base ∈ dir → 1 ≤ j → mk j ∉ dir →
      (∀ k, 1 ≤ k → k < j → mk k ∈ dir) →
      resolve_name base mk dir = mk j) ∧
    rename_contratos_dest "12345678909".data "1234567890123".data
      ["12345678909_1234567890123.pdf".data] =
      "12345678909_1234567890123_1.pdf".data ∧
    rename_certidoes_5_6_dest "JOAO DA SILVA".data "5".data
      ["JOAO DA SILVA-5.pdf".data] = "JOAO DA SILVA-5.1.pdf".data :=
  ⟨fun _ _ _ h => resolve_name_free h,
   fun _ _ _ _ hinj hb h1 h2 h3 => resolve_name_collision hinj hb h1 h2 h3,
   by decide, by decide⟩

/-- Concrete instance of C8: a non-colliding base passes through, and with
the base taken, index 1 of an injective suffixing map is chosen. -/
theorem C8_filename_resolution_witness :
    resolve_name "a.pdf".data (fun i => List.replicate i 'x') [] = "a.pdf".data ∧
    resolve_name [] (fun i => List.replicate i 'x') [[]] = ['x'] :=
  ⟨C8_filename_resolution.1 "a.pdf".data (fun i => List.replicate i 'x') []
     (by decide),
   C8_filename_resolution.2.1 [] (fun i => List.replicate i 'x') [[]] 1
     (fun a b h => by simpa using congrArg List.length h)
     (by decide) (by decide) (by decide) (fun k hk1 hk2 => absurd hk1 (by omega))⟩

end Renomeador
